import Mathlib

/-!
Verification development for the Carson-integral evaluator
(src/research/line_impedances/EMTP_Theory_Book_Correction/Carson_integral.cxx).

The C++ source computes, for a pair of real parameters (p, q):
  * fixed lookup tables: factorials F, harmonic partial sums SI,
    odd-square products PX (function Factorials),
  * the EMTP Theory Book coefficient tables b, c, d (function Coeffs),
  * Carson's asymptotic series J(p, q),
  * the EMTP Theory Book series Je(p, q),
  * a composite-Simpson quadrature CI(p, q) of the defining integral.

Doubles are modelled by real numbers; the IEEE not-a-number condition is
modelled separately by values in Option ℝ, where none stands for NaN and
every arithmetic operation propagates it.  Global arrays (which in C++
have static storage and are zero-initialized) are modelled as functions
ℕ → ℝ together with explicit written-flags recording which entries the
initialization code assigns.
-/

namespace Carson

/-- The source constant tworoot = sqrt(2.0). -/
noncomputable def tworoot : ℝ := Real.sqrt 2

/-- The source constant Euler = 0.577215664901532860606512 (a decimal
literal in the source, not the exact Euler–Mascheroni constant). -/
noncomputable def Euler : ℝ := 0.577215664901532860606512

/-- The source constant gamma_e = exp(Euler). -/
noncomputable def gamma_e : ℝ := Real.exp Euler

/-- sum_inv(m) from the source: sum = 1 - 1/(2m); then for mx in [2, m]
it adds 1/mx. -/
noncomputable def sum_inv (m : ℕ) : ℝ :=
  1 - 1 / (2 * (m : ℝ)) + ∑ mx in Finset.Icc 2 m, (1 / (mx : ℝ))

/-- prod_xsq(m) from the source: prod = m; then for mx in [1, m/2) it
multiplies by (2*mx+1)^2. -/
noncomputable def prod_xsq (m : ℕ) : ℝ :=
  (m : ℝ) * ∏ mx in Finset.Ico 1 (m / 2), (((2 * mx + 1 : ℕ) : ℝ)) ^ 2

/-- The factorial table F (size Nf = 150): F[0] = 1, F[n] = n * F[n-1],
filled by the forward loop in Factorials(). -/
noncomputable def F : ℕ → ℝ
  | 0 => 1
  | n + 1 => ((n + 1 : ℕ) : ℝ) * F n

/-- The harmonic partial-sum table SI (size Nsi = 101): the loop in
Factorials() assigns SI[n] = sum_inv(n) for n = 2..100; all other
entries keep their zero initialization. -/
noncomputable def SI (n : ℕ) : ℝ :=
  if 2 ≤ n ∧ n < 101 then sum_inv n else 0

/-- The odd-square-product table PX (size Nsi + 1 = 102): the loop in
Factorials() assigns PX[n] = prod_xsq(n) for odd n = 1, 3, ..., 101;
all other entries keep their zero initialization. -/
noncomputable def PX (n : ℕ) : ℝ :=
  if n % 2 = 1 ∧ n < 102 then prod_xsq n else 0

/-- Pointwise array update, modelling an assignment a[i] = v. -/
def updF {α : Type} (f : ℕ → α) (i : ℕ) (v : α) : ℕ → α :=
  fun j => if j = i then v else f j

/-- State of the global coefficient arrays b, c, d (each of size Ne = 50)
together with flags recording which entries have been assigned. -/
structure CoeffState where
  b : ℕ → ℝ
  c : ℕ → ℝ
  d : ℕ → ℝ
  wb : ℕ → Bool
  wc : ℕ → Bool
  wd : ℕ → Bool

/-- The corrected sign factor used by Coeffs():
nsign = pow(-1.0, (n + 1)/2 % 2), with C integer division. -/
noncomputable def signC (n : ℕ) : ℝ := (-1 : ℝ) ^ ((n + 1) / 2 % 2)

/-- The published (commented-out) sign factor noted as incorrect in the
source: pow(-1.0, (n - 1)/4 % 2). -/
noncomputable def signPub (n : ℕ) : ℝ := (-1 : ℝ) ^ ((n - 1) / 4 % 2)

/-- The seed assignments of Coeffs(): b[1] = tworoot/6, b[2] = 1/16,
c[2] = 1.3659315, d[2] = pi*b[2]/4, performed on the zero-initialized
global arrays. -/
noncomputable def coeffsSeed : CoeffState :=
  let s0 : CoeffState :=
    ⟨fun _ => 0, fun _ => 0, fun _ => 0, fun _ => false, fun _ => false, fun _ => false⟩
  let s1 := { s0 with b := updF s0.b 1 (tworoot / 6), wb := updF s0.wb 1 true }
  let s2 := { s1 with b := updF s1.b 2 (1 / 16), wb := updF s1.wb 2 true }
  let s3 := { s2 with c := updF s2.c 2 1.3659315, wc := updF s2.wc 2 true }
  { s3 with d := updF s3.d 2 (Real.pi * s3.b 2 / 4), wd := updF s3.wd 2 true }

/-- One iteration of the Coeffs() loop body at index n:
b[n] = nsign * b[n-2]/(n*(n+2.0)); c[n] = c[n-2] + 1.0/n + 1.0/(n+2);
d[n] = pi * b[n]/4. -/
noncomputable def coeffsStep (s : CoeffState) (n : ℕ) : CoeffState :=
  let bn := signC n * s.b (n - 2) / ((n : ℝ) * ((n : ℝ) + 2))
  let cn := s.c (n - 2) + 1 / (n : ℝ) + 1 / (((n + 2 : ℕ)) : ℝ)
  let dn := Real.pi * bn / 4
  { b := updF s.b n bn, c := updF s.c n cn, d := updF s.d n dn,
    wb := updF s.wb n true, wc := updF s.wc n true, wd := updF s.wd n true }

/-- The Coeffs() loop after its first k iterations: indices 3, 4, ...,
2 + k processed in order. -/
noncomputable def coeffsIter (k : ℕ) : CoeffState :=
  (List.range' 3 k).foldl coeffsStep coeffsSeed

/-- The final global coefficient state: the loop runs for
n = 3, ..., 49 (n < Ne = 50), i.e. 47 iterations. -/
noncomputable def coeffsFinal : CoeffState := coeffsIter 47

/-- Reference recurrence for the b table (value that Coeffs() stores at
each index). -/
noncomputable def bSpec : ℕ → ℝ
  | 0 => 0
  | 1 => tworoot / 6
  | 2 => 1 / 16
  | n + 3 => signC (n + 3) * bSpec (n + 1) / (((n + 3 : ℕ) : ℝ) * (((n + 3 : ℕ) : ℝ) + 2))

/-- Reference recurrence for the c table. -/
noncomputable def cSpec : ℕ → ℝ
  | 0 => 0
  | 1 => 0
  | 2 => 1.3659315
  | n + 3 => cSpec (n + 1) + 1 / ((n + 3 : ℕ) : ℝ) + 1 / (((n + 3) + 2 : ℕ) : ℝ)

/-- Reference closed form for the d table. -/
noncomputable def dSpec (n : ℕ) : ℝ :=
  if 2 ≤ n then Real.pi * bSpec n / 4 else 0

/-- Four-quadrant arctangent, the mathematical content of C atan2(y, x)
(signed zero excluded: over ℝ there is a single zero). -/
noncomputable def atan2 (y x : ℝ) : ℝ :=
  if 0 < x then Real.arctan (y / x)
  else if x < 0 then
    (if 0 ≤ y then Real.arctan (y / x) + Real.pi else Real.arctan (y / x) - Real.pi)
  else
    (if 0 < y then Real.pi / 2 else if y < 0 then -(Real.pi / 2) else 0)

/-!
The six accumulation loops of J(p, q), written as closed sums: over the
8 iterations ns = 0..7 the loop variables advance as nsign = (-1)^ns,
nf = nf0 + 2*ns, nden = nden0 + 4*ns, nfrac = nfrac0 + 2*ns, and the
power/trig tables hold rp[n] = r^n, rhp[n] = (0.5*r)^n,
cthp[n] = cos(n*th), sthp[n] = sin(n*th).  (For the s4 and sg4 loops the
last iteration asks the tables for index 32, one past their extent; the
model extends each table by its defining formula — see the index-bound
theorem for that out-of-bounds access.)
-/

/-- The s2 accumulation of J: nf = 1 + 2*ns, np = 2 + 4*ns. -/
noncomputable def s2sum (r th : ℝ) : ℝ :=
  ∑ ns in Finset.range 8, (-1 : ℝ) ^ ns * (1 / (F (1 + 2 * ns) * F (1 + 2 * ns + 1))) *
    (0.5 * r) ^ (2 + 4 * ns) * Real.cos (((2 + 4 * ns : ℕ) : ℝ) * th)

/-- The s2p accumulation of J (sine companion of s2). -/
noncomputable def s2psum (r th : ℝ) : ℝ :=
  ∑ ns in Finset.range 8, (-1 : ℝ) ^ ns * (1 / (F (1 + 2 * ns) * F (1 + 2 * ns + 1))) *
    (0.5 * r) ^ (2 + 4 * ns) * Real.sin (((2 + 4 * ns : ℕ) : ℝ) * th)

/-- The s4 accumulation of J: nf = 2 + 2*ns, np = 4 + 4*ns. -/
noncomputable def s4sum (r th : ℝ) : ℝ :=
  ∑ ns in Finset.range 8, (-1 : ℝ) ^ ns * (1 / (F (2 + 2 * ns) * F (2 + 2 * ns + 1))) *
    (0.5 * r) ^ (4 + 4 * ns) * Real.cos (((4 + 4 * ns : ℕ) : ℝ) * th)

/-- The s4p accumulation of J (sine companion of s4). -/
noncomputable def s4psum (r th : ℝ) : ℝ :=
  ∑ ns in Finset.range 8, (-1 : ℝ) ^ ns * (1 / (F (2 + 2 * ns) * F (2 + 2 * ns + 1))) *
    (0.5 * r) ^ (4 + 4 * ns) * Real.sin (((4 + 4 * ns : ℕ) : ℝ) * th)

/-- The sg1 accumulation of J: np = 1 + 4*ns, nden = 3 + 4*ns. -/
noncomputable def sg1sum (r th : ℝ) : ℝ :=
  ∑ ns in Finset.range 8, (-1 : ℝ) ^ ns * r ^ (1 + 4 * ns) *
    Real.cos (((1 + 4 * ns : ℕ) : ℝ) * th) / PX (3 + 4 * ns)

/-- The sg3 accumulation of J: np = 3 + 4*ns, nden = 5 + 4*ns. -/
noncomputable def sg3sum (r th : ℝ) : ℝ :=
  ∑ ns in Finset.range 8, (-1 : ℝ) ^ ns * r ^ (3 + 4 * ns) *
    Real.cos (((3 + 4 * ns : ℕ) : ℝ) * th) / PX (5 + 4 * ns)

/-- The sg2 accumulation of J: nfrac = 2 + 2*ns, nf = 1 + 2*ns, np = 2 + 4*ns. -/
noncomputable def sg2sum (r th : ℝ) : ℝ :=
  ∑ ns in Finset.range 8, (-1 : ℝ) ^ ns * SI (2 + 2 * ns) *
    (1 / (F (1 + 2 * ns) * F (1 + 2 * ns + 1))) *
    (0.5 * r) ^ (2 + 4 * ns) * Real.cos (((2 + 4 * ns : ℕ) : ℝ) * th)

/-- The sg4 accumulation of J: nfrac = 3 + 2*ns, nf = 2 + 2*ns, np = 4 + 4*ns. -/
noncomputable def sg4sum (r th : ℝ) : ℝ :=
  ∑ ns in Finset.range 8, (-1 : ℝ) ^ ns * SI (3 + 2 * ns) *
    (1 / (F (2 + 2 * ns) * F (2 + 2 * ns + 1))) *
    (0.5 * r) ^ (4 + 4 * ns) * Real.cos (((4 + 4 * ns : ℕ) : ℝ) * th)

/-- The final combination (P, Q) of J in terms of magnitude r and angle
th (source lines computing P and Q from the six sums). -/
noncomputable def Jcore (r th : ℝ) : ℝ × ℝ :=
  ((Real.pi / 8) * (1 - s4sum r th)
     + 0.5 * (Real.log (2 / gamma_e) - Real.log r) * s2sum r th
     + 0.5 * th * s2psum r th
     - sg1sum r th / tworoot + 0.5 * sg2sum r th + sg3sum r th / tworoot,
   0.25 + 0.5 * (Real.log (2 / gamma_e) - Real.log r) * (1 - s4sum r th)
     - 0.5 * th * s4psum r th
     + sg1sum r th / tworoot - (Real.pi / 8) * s2sum r th
     + sg3sum r th / tworoot - 0.5 * sg4sum r th)

/-- Carson's asymptotic series J(p, q): r = sqrt(p*p + q*q),
th = atan2(q, p). -/
noncomputable def J (p q : ℝ) : ℝ × ℝ :=
  Jcore (Real.sqrt (p * p + q * q)) (atan2 q p)

/-! Index expressions of the six loops of J, as functions of the loop
counter ns (0 ≤ ns < Ns = 8).  The tables read are:
F (size 150) at nf and nf + 1; PX (size 102) at nden; SI (size 101) at
nfrac; rp/rhp/cthp/sthp (size 32) at np. -/

def s2_nf (ns : ℕ) : ℕ := 1 + 2 * ns
def s2_np (ns : ℕ) : ℕ := 2 + 4 * ns
def s4_nf (ns : ℕ) : ℕ := 2 + 2 * ns
def s4_np (ns : ℕ) : ℕ := 4 + 4 * ns
def sg1_np (ns : ℕ) : ℕ := 1 + 4 * ns
def sg1_nden (ns : ℕ) : ℕ := 3 + 4 * ns
def sg3_np (ns : ℕ) : ℕ := 3 + 4 * ns
def sg3_nden (ns : ℕ) : ℕ := 5 + 4 * ns
def sg2_nf (ns : ℕ) : ℕ := 1 + 2 * ns
def sg2_np (ns : ℕ) : ℕ := 2 + 4 * ns
def sg2_nfrac (ns : ℕ) : ℕ := 2 + 2 * ns
def sg4_nf (ns : ℕ) : ℕ := 2 + 2 * ns
def sg4_np (ns : ℕ) : ℕ := 4 + 4 * ns
def sg4_nfrac (ns : ℕ) : ℕ := 3 + 2 * ns

/-- The P component of the EMTP Theory Book series Je, in terms of the
coefficient tables bf, cf, df and the magnitude a and angle th
(ap[n] = a^n, cthp[n] = cos(n*th), sthp[n] = sin(n*th), lna = log a). -/
noncomputable def JeGenPcore (bf cf df : ℕ → ℝ) (a th : ℝ) : ℝ :=
  Real.pi / 8
  - bf 1 * a ^ 1 * Real.cos (1 * th)
  + bf 2 * ((cf 2 - Real.log a) * a ^ 2 * Real.cos (2 * th) + th * a ^ 2 * Real.sin (2 * th))
  + bf 3 * a ^ 3 * Real.cos (3 * th)
  - df 4 * a ^ 4 * Real.cos (4 * th)
  - bf 5 * a ^ 5 * Real.cos (5 * th)
  + bf 6 * ((cf 6 - Real.log a) * a ^ 6 * Real.cos (6 * th) + th * a ^ 6 * Real.sin (6 * th))
  + bf 7 * a ^ 7 * Real.cos (7 * th)
  - df 8 * a ^ 8 * Real.cos (8 * th)
  - bf 9 * a ^ 9 * Real.cos (9 * th)
  + bf 10 * ((cf 10 - Real.log a) * a ^ 10 * Real.cos (10 * th) + th * a ^ 10 * Real.sin (10 * th))
  + bf 11 * a ^ 11 * Real.cos (11 * th)
  - df 12 * a ^ 12 * Real.cos (12 * th)
  - bf 13 * a ^ 13 * Real.cos (13 * th)
  + bf 14 * ((cf 14 - Real.log a) * a ^ 14 * Real.cos (14 * th) + th * a ^ 14 * Real.sin (14 * th))
  + bf 15 * a ^ 15 * Real.cos (15 * th)
  - df 16 * a ^ 16 * Real.cos (16 * th)
  - bf 17 * a ^ 17 * Real.cos (17 * th)
  + bf 18 * ((cf 18 - Real.log a) * a ^ 18 * Real.cos (18 * th) + th * a ^ 18 * Real.sin (18 * th))
  + bf 19 * a ^ 19 * Real.cos (19 * th)
  - df 20 * a ^ 20 * Real.cos (20 * th)
  - bf 21 * a ^ 21 * Real.cos (21 * th)
  + bf 22 * ((cf 22 - Real.log a) * a ^ 22 * Real.cos (22 * th) + th * a ^ 22 * Real.sin (22 * th))
  + bf 23 * a ^ 23 * Real.cos (23 * th)
  - df 24 * a ^ 24 * Real.cos (24 * th)
  - bf 25 * a ^ 25 * Real.cos (25 * th)

/-- The Q component of the EMTP Theory Book series Je. -/
noncomputable def JeGenQcore (bf cf df : ℕ → ℝ) (a th : ℝ) : ℝ :=
  (1 / 2) * (0.6159315 - Real.log a)
  + bf 1 * a ^ 1 * Real.cos (1 * th)
  - df 2 * a ^ 2 * Real.cos (2 * th)
  + bf 3 * a ^ 3 * Real.cos (3 * th)
  - bf 4 * ((cf 4 - Real.log a) * a ^ 4 * Real.cos (4 * th) + th * a ^ 4 * Real.sin (4 * th))
  + bf 5 * a ^ 5 * Real.cos (5 * th)
  - df 6 * a ^ 6 * Real.cos (6 * th)
  + bf 7 * a ^ 7 * Real.cos (7 * th)
  - bf 8 * ((cf 8 - Real.log a) * a ^ 8 * Real.cos (8 * th) + th * a ^ 8 * Real.sin (8 * th))
  + bf 9 * a ^ 9 * Real.cos (9 * th)
  - df 10 * a ^ 10 * Real.cos (10 * th)
  + bf 11 * a ^ 11 * Real.cos (11 * th)
  - bf 12 * ((cf 12 - Real.log a) * a ^ 12 * Real.cos (12 * th) + th * a ^ 12 * Real.sin (12 * th))
  + bf 13 * a ^ 13 * Real.cos (13 * th)
  - df 14 * a ^ 14 * Real.cos (14 * th)
  + bf 15 * a ^ 15 * Real.cos (15 * th)
  - bf 16 * ((cf 16 - Real.log a) * a ^ 16 * Real.cos (16 * th) + th * a ^ 16 * Real.sin (16 * th))
  + bf 17 * a ^ 17 * Real.cos (17 * th)
  - df 18 * a ^ 18 * Real.cos (18 * th)
  + bf 19 * a ^ 19 * Real.cos (19 * th)
  - bf 20 * ((cf 20 - Real.log a) * a ^ 20 * Real.cos (20 * th) + th * a ^ 20 * Real.sin (20 * th))
  + bf 21 * a ^ 21 * Real.cos (21 * th)
  - df 22 * a ^ 22 * Real.cos (22 * th)
  + bf 23 * a ^ 23 * Real.cos (23 * th)

/-- Je's P as a function of (p, q) and arbitrary coefficient tables. -/
noncomputable def JeGenP (bf cf df : ℕ → ℝ) (p q : ℝ) : ℝ :=
  JeGenPcore bf cf df (Real.sqrt (p * p + q * q)) (atan2 q p)

/-- Je's Q as a function of (p, q) and arbitrary coefficient tables. -/
noncomputable def JeGenQ (bf cf df : ℕ → ℝ) (p q : ℝ) : ℝ :=
  JeGenQcore bf cf df (Real.sqrt (p * p + q * q)) (atan2 q p)

/-- The EMTP Theory Book series Je(p, q), using the coefficient tables
produced by Coeffs(). -/
noncomputable def Je (p q : ℝ) : ℝ × ℝ :=
  (JeGenP coeffsFinal.b coeffsFinal.c coeffsFinal.d p q,
   JeGenQ coeffsFinal.b coeffsFinal.c coeffsFinal.d p q)

/-! IEEE not-a-number model: a double is an Option ℝ, with none standing
for NaN; every arithmetic operation propagates NaN. -/

/-- isnan(x) in the model. -/
def fisnan (x : Option ℝ) : Bool := x.isNone

noncomputable def fadd : Option ℝ → Option ℝ → Option ℝ
  | some a, some b => some (a + b)
  | _, _ => none

noncomputable def fsub : Option ℝ → Option ℝ → Option ℝ
  | some a, some b => some (a - b)
  | _, _ => none

noncomputable def fmul : Option ℝ → Option ℝ → Option ℝ
  | some a, some b => some (a * b)
  | _, _ => none

noncomputable def fdiv : Option ℝ → Option ℝ → Option ℝ
  | some a, some b => some (a / b)
  | _, _ => none

noncomputable instance : Add (Option ℝ) := ⟨fadd⟩
noncomputable instance : Sub (Option ℝ) := ⟨fsub⟩
noncomputable instance : Mul (Option ℝ) := ⟨fmul⟩
noncomputable instance : Div (Option ℝ) := ⟨fdiv⟩

/-- Diagnostic state emitted on a NaN detection inside J.  The first
loop (s2/s2p) prints, besides the loop counter ns and power index np,
the table entries rhp[np], cthp[np], sthp[np], the (already flipped)
sign, the (already advanced) factorial index nf with F[nf] and F[nf+1],
and the two partial sums; the other five loops print only ns and np. -/
inductive JDiag where
  | s2full (ns np : ℕ) (rhpv cthv sthv : Option ℝ) (nsign : Int) (nf : ℕ)
      (fa fb : ℝ) (s2v s2pv : Option ℝ)
  | s4brief (ns np : ℕ)
  | g1brief (ns np : ℕ)
  | g3brief (ns np : ℕ)
  | g2brief (ns np : ℕ)
  | g4brief (ns np : ℕ)

/-- Whether a diagnostic carries the intermediate values (table entries
and partial sums), beyond the two indices. -/
def diagHasIntermediates : JDiag → Bool
  | .s2full _ _ _ _ _ _ _ _ _ _ _ => true
  | _ => false

/-- Checked accumulation over a pair of partial sums: after each
accumulation step both sums are tested with isnan; on detection the
loop aborts at once with the diagnostic built by mk (the source then
exits the process). -/
noncomputable def chkPair (f g : ℕ → Option ℝ)
    (mk : ℕ → Option ℝ → Option ℝ → JDiag) :
    List ℕ → Option ℝ → Option ℝ → Except JDiag (Option ℝ × Option ℝ)
  | [], a, b => .ok (a, b)
  | ns :: rest, a, b =>
    if fisnan (a + f ns) || fisnan (b + g ns) then .error (mk ns (a + f ns) (b + g ns))
    else chkPair f g mk rest (a + f ns) (b + g ns)

/-- Checked accumulation over a single partial sum. -/
noncomputable def chkOne (f : ℕ → Option ℝ) (mk : ℕ → JDiag) :
    List ℕ → Option ℝ → Except JDiag (Option ℝ)
  | [], a => .ok a
  | ns :: rest, a =>
    if fisnan (a + f ns) then .error (mk ns)
    else chkOne f mk rest (a + f ns)

/-- The s2/s2p loop of J over the NaN model: term
nsign * (1/(F[nf]*F[nf+1])) * rhp[np] * cthp[np] (resp. sthp) with
nf = 1 + 2*ns, np = 2 + 4*ns; its diagnostic carries the indices, the
table entries, the already-flipped sign, the already-advanced factorial
index with F[nf], F[nf+1], and both partial sums. -/
noncomputable def s2loop (rhp cthp sthp : ℕ → Option ℝ) :
    List ℕ → Option ℝ → Option ℝ → Except JDiag (Option ℝ × Option ℝ) :=
  chkPair
    (fun ns => some ((-1 : ℝ) ^ ns) * some (1 / (F (1 + 2 * ns) * F (1 + 2 * ns + 1))) *
      rhp (2 + 4 * ns) * cthp (2 + 4 * ns))
    (fun ns => some ((-1 : ℝ) ^ ns) * some (1 / (F (1 + 2 * ns) * F (1 + 2 * ns + 1))) *
      rhp (2 + 4 * ns) * sthp (2 + 4 * ns))
    (fun ns a b => .s2full ns (2 + 4 * ns) (rhp (2 + 4 * ns)) (cthp (2 + 4 * ns))
      (sthp (2 + 4 * ns)) (if ns % 2 = 0 then -1 else 1) (1 + 2 * ns + 2)
      (F (1 + 2 * ns + 2)) (F (1 + 2 * ns + 3)) a b)

/-- The s4/s4p loop of J over the NaN model: nf = 2 + 2*ns,
np = 4 + 4*ns; its diagnostic carries only the two indices. -/
noncomputable def s4loop (rhp cthp sthp : ℕ → Option ℝ) :
    List ℕ → Option ℝ → Option ℝ → Except JDiag (Option ℝ × Option ℝ) :=
  chkPair
    (fun ns => some ((-1 : ℝ) ^ ns) * some (1 / (F (2 + 2 * ns) * F (2 + 2 * ns + 1))) *
      rhp (4 + 4 * ns) * cthp (4 + 4 * ns))
    (fun ns => some ((-1 : ℝ) ^ ns) * some (1 / (F (2 + 2 * ns) * F (2 + 2 * ns + 1))) *
      rhp (4 + 4 * ns) * sthp (4 + 4 * ns))
    (fun ns _ _ => .s4brief ns (4 + 4 * ns))

/-- The sg1 loop of J over the NaN model: term
nsign * rp[np] * cthp[np] / PX[nden], np = 1 + 4*ns, nden = 3 + 4*ns. -/
noncomputable def g1loop (rp cthp : ℕ → Option ℝ) :
    List ℕ → Option ℝ → Except JDiag (Option ℝ) :=
  chkOne
    (fun ns => some ((-1 : ℝ) ^ ns) * rp (1 + 4 * ns) * cthp (1 + 4 * ns) /
      some (PX (3 + 4 * ns)))
    (fun ns => .g1brief ns (1 + 4 * ns))

/-- The sg3 loop of J over the NaN model: np = 3 + 4*ns, nden = 5 + 4*ns. -/
noncomputable def g3loop (rp cthp : ℕ → Option ℝ) :
    List ℕ → Option ℝ → Except JDiag (Option ℝ) :=
  chkOne
    (fun ns => some ((-1 : ℝ) ^ ns) * rp (3 + 4 * ns) * cthp (3 + 4 * ns) /
      some (PX (5 + 4 * ns)))
    (fun ns => .g3brief ns (3 + 4 * ns))

/-- The sg2 loop of J over the NaN model: term
nsign * SI[nfrac] * (1/(F[nf]*F[nf+1])) * rhp[np] * cthp[np],
nfrac = 2 + 2*ns, nf = 1 + 2*ns, np = 2 + 4*ns. -/
noncomputable def g2loop (rhp cthp : ℕ → Option ℝ) :
    List ℕ → Option ℝ → Except JDiag (Option ℝ) :=
  chkOne
    (fun ns => some ((-1 : ℝ) ^ ns) * some (SI (2 + 2 * ns)) *
      some (1 / (F (1 + 2 * ns) * F (1 + 2 * ns + 1))) * rhp (2 + 4 * ns) * cthp (2 + 4 * ns))
    (fun ns => .g2brief ns (2 + 4 * ns))

/-- The sg4 loop of J over the NaN model: nfrac = 3 + 2*ns,
nf = 2 + 2*ns, np = 4 + 4*ns. -/
noncomputable def g4loop (rhp cthp : ℕ → Option ℝ) :
    List ℕ → Option ℝ → Except JDiag (Option ℝ) :=
  chkOne
    (fun ns => some ((-1 : ℝ) ^ ns) * some (SI (3 + 2 * ns)) *
      some (1 / (F (2 + 2 * ns) * F (2 + 2 * ns + 1))) * rhp (4 + 4 * ns) * cthp (4 + 4 * ns))
    (fun ns => .g4brief ns (4 + 4 * ns))

/-- A loop result that returned normally is NaN-free (pair form). -/
def okNanFree2 : Except JDiag (Option ℝ × Option ℝ) → Bool
  | .ok (a, b) => !(fisnan a || fisnan b)
  | .error _ => true

/-- A loop result that returned normally is NaN-free (single form). -/
def okNanFree1 : Except JDiag (Option ℝ) → Bool
  | .ok a => !(fisnan a)
  | .error _ => true

/-- The indices n < 32 whose power or trig table entry is NaN (those Je
reports), as a filter. -/
def JeLog (ap cthp sthp : ℕ → Option ℝ) : List ℕ :=
  (List.range 32).filter fun n => fisnan (ap n) || fisnan (cthp n) || fisnan (sthp n)

/-- The table-building loop of Je over the NaN model: for each n < 32 it
tests ap[n], cthp[n], sthp[n] with isnan and, on detection, only records
a diagnostic — it never aborts. -/
def JeCheckLog (ap cthp sthp : ℕ → Option ℝ) : List ℕ :=
  (List.range 32).foldl
    (fun acc n =>
      if fisnan (ap n) || fisnan (cthp n) || fisnan (sthp n) then acc ++ [n] else acc)
    []

/-- Je's P over the NaN model (tables ap/cthp/sthp may hold NaN; the
scalars lna and th and the coefficient tables are ordinary doubles). -/
noncomputable def JePopt (lna th : ℝ) (ap cthp sthp : ℕ → Option ℝ) : Option ℝ :=
  some (Real.pi / 8)
  - some (coeffsFinal.b 1) * ap 1 * cthp 1
  + some (coeffsFinal.b 2) * (some (coeffsFinal.c 2 - lna) * ap 2 * cthp 2 + some th * ap 2 * sthp 2)
  + some (coeffsFinal.b 3) * ap 3 * cthp 3
  - some (coeffsFinal.d 4) * ap 4 * cthp 4
  - some (coeffsFinal.b 5) * ap 5 * cthp 5
  + some (coeffsFinal.b 6) * (some (coeffsFinal.c 6 - lna) * ap 6 * cthp 6 + some th * ap 6 * sthp 6)
  + some (coeffsFinal.b 7) * ap 7 * cthp 7
  - some (coeffsFinal.d 8) * ap 8 * cthp 8
  - some (coeffsFinal.b 9) * ap 9 * cthp 9
  + some (coeffsFinal.b 10) * (some (coeffsFinal.c 10 - lna) * ap 10 * cthp 10 + some th * ap 10 * sthp 10)
  + some (coeffsFinal.b 11) * ap 11 * cthp 11
  - some (coeffsFinal.d 12) * ap 12 * cthp 12
  - some (coeffsFinal.b 13) * ap 13 * cthp 13
  + some (coeffsFinal.b 14) * (some (coeffsFinal.c 14 - lna) * ap 14 * cthp 14 + some th * ap 14 * sthp 14)
  + some (coeffsFinal.b 15) * ap 15 * cthp 15
  - some (coeffsFinal.d 16) * ap 16 * cthp 16
  - some (coeffsFinal.b 17) * ap 17 * cthp 17
  + some (coeffsFinal.b 18) * (some (coeffsFinal.c 18 - lna) * ap 18 * cthp 18 + some th * ap 18 * sthp 18)
  + some (coeffsFinal.b 19) * ap 19 * cthp 19
  - some (coeffsFinal.d 20) * ap 20 * cthp 20
  - some (coeffsFinal.b 21) * ap 21 * cthp 21
  + some (coeffsFinal.b 22) * (some (coeffsFinal.c 22 - lna) * ap 22 * cthp 22 + some th * ap 22 * sthp 22)
  + some (coeffsFinal.b 23) * ap 23 * cthp 23
  - some (coeffsFinal.d 24) * ap 24 * cthp 24
  - some (coeffsFinal.b 25) * ap 25 * cthp 25

/-- Je's Q over the NaN model. -/
noncomputable def JeQopt (lna th : ℝ) (ap cthp sthp : ℕ → Option ℝ) : Option ℝ :=
  some ((1 / 2) * (0.6159315 - lna))
  + some (coeffsFinal.b 1) * ap 1 * cthp 1
  - some (coeffsFinal.d 2) * ap 2 * cthp 2
  + some (coeffsFinal.b 3) * ap 3 * cthp 3
  - some (coeffsFinal.b 4) * (some (coeffsFinal.c 4 - lna) * ap 4 * cthp 4 + some th * ap 4 * sthp 4)
  + some (coeffsFinal.b 5) * ap 5 * cthp 5
  - some (coeffsFinal.d 6) * ap 6 * cthp 6
  + some (coeffsFinal.b 7) * ap 7 * cthp 7
  - some (coeffsFinal.b 8) * (some (coeffsFinal.c 8 - lna) * ap 8 * cthp 8 + some th * ap 8 * sthp 8)
  + some (coeffsFinal.b 9) * ap 9 * cthp 9
  - some (coeffsFinal.d 10) * ap 10 * cthp 10
  + some (coeffsFinal.b 11) * ap 11 * cthp 11
  - some (coeffsFinal.b 12) * (some (coeffsFinal.c 12 - lna) * ap 12 * cthp 12 + some th * ap 12 * sthp 12)
  + some (coeffsFinal.b 13) * ap 13 * cthp 13
  - some (coeffsFinal.d 14) * ap 14 * cthp 14
  + some (coeffsFinal.b 15) * ap 15 * cthp 15
  - some (coeffsFinal.b 16) * (some (coeffsFinal.c 16 - lna) * ap 16 * cthp 16 + some th * ap 16 * sthp 16)
  + some (coeffsFinal.b 17) * ap 17 * cthp 17
  - some (coeffsFinal.d 18) * ap 18 * cthp 18
  + some (coeffsFinal.b 19) * ap 19 * cthp 19
  - some (coeffsFinal.b 20) * (some (coeffsFinal.c 20 - lna) * ap 20 * cthp 20 + some th * ap 20 * sthp 20)
  + some (coeffsFinal.b 21) * ap 21 * cthp 21
  - some (coeffsFinal.d 22) * ap 22 * cthp 22
  + some (coeffsFinal.b 23) * ap 23 * cthp 23

/-- Je over the NaN model: the recorded diagnostics together with the
(possibly NaN) result pair — no abort path exists. -/
noncomputable def JeChecked (lna th : ℝ) (ap cthp sthp : ℕ → Option ℝ) :
    List ℕ × (Option ℝ × Option ℝ) :=
  (JeCheckLog ap cthp sthp, (JePopt lna th ap cthp sthp, JeQopt lna th ap cthp sthp))

/-- A power table whose entry a^1 is NaN, the others finite. -/
def apNan : ℕ → Option ℝ := fun n => if n = 1 then none else some 1

/-- A table of finite entries. -/
def oneTbl : ℕ → Option ℝ := fun _ => some 1

/-- Complex square root (principal branch), modelling std::sqrt on
std::complex. -/
noncomputable def csqrt (z : ℂ) : ℂ := z ^ ((1 : ℂ) / 2)

/-- The integrand of CI at sample point mu:
(sqrt(mu*mu + i) - mu) * exp(-p*mu) * cos(q*mu), where the exponential
and cosine factors are real. -/
noncomputable def CIintegrand (p q mu : ℝ) : ℂ :=
  (csqrt (((mu * mu : ℝ) : ℂ) + Complex.I) - (mu : ℂ)) *
    (((Real.exp (-p * mu) * Real.cos (q * mu)) : ℝ) : ℂ)

/-- The Simpson factor of CI: ifac = 1 at the endpoints, otherwise
2*(i % 2) + 2. -/
def CIifac (N i : ℕ) : ℝ :=
  if i = 0 ∨ i = N then 1 else ((2 * (i % 2) + 2 : ℕ) : ℝ)

/-- CI(p, q): composite Simpson accumulation over i = 0..N with
N = 10000, mu_max = 10, dmu = mu_max/N, followed by the dmu/3 scaling. -/
noncomputable def CI (p q : ℝ) : ℂ :=
  ((List.range 10001).foldl
      (fun s i => s + ((CIifac 10000 i : ℝ) : ℂ) * CIintegrand p q ((i : ℝ) * (10 / 10000 : ℝ)))
      0) * (((10 / 10000 : ℝ) / 3 : ℝ) : ℂ)

/-- The integrand as the specification writes it:
(sqrt(mu^2 + i) - mu) * e^(-p*mu) * cos(q*mu). -/
noncomputable def fSpec (p q mu : ℝ) : ℂ :=
  (csqrt (((mu ^ 2 : ℝ) : ℂ) + Complex.I) - (mu : ℂ)) *
    (((Real.exp (-p * mu) * Real.cos (q * mu)) : ℝ) : ℂ)

/-- The standard Simpson weight pattern 1, 4, 2, 4, ..., 4, 1. -/
def wSimpson (N i : ℕ) : ℝ :=
  if i = 0 ∨ i = N then 1 else if i % 2 = 1 then 4 else 2

/-- The composite-Simpson sum as the specification states it: the sum
over i = 0..N of w_i * f(i * dmu), scaled by dmu/3. -/
noncomputable def CISpec (p q : ℝ) : ℂ :=
  (((10 / 10000 : ℝ) / 3 : ℝ) : ℂ) *
    ∑ i in Finset.range 10001, ((wSimpson 10000 i : ℝ) : ℂ) * fSpec p q ((i : ℝ) * (10 / 10000 : ℝ))

theorem updF_same {α : Type} (f : ℕ → α) (i : ℕ) (v : α) : updF f i v i = v := by
  simp [updF]

theorem updF_other {α : Type} (f : ℕ → α) (i j : ℕ) (v : α) (h : j ≠ i) :
    updF f i v j = f j := by
  simp [updF, h]

theorem coeffsIter_zero : coeffsIter 0 = coeffsSeed := rfl

theorem coeffsIter_succ (k : ℕ) :
    coeffsIter (k + 1) = coeffsStep (coeffsIter k) (3 + k) := by
  unfold coeffsIter
  rw [List.range'_concat, List.foldl_append, List.foldl_cons, List.foldl_nil, one_mul]

/-- Values of the coefficient arrays after k iterations agree with the
reference recurrences on all indices already processed. -/
theorem coeffsIter_values (k : ℕ) : ∀ n, n < 3 + k →
    (coeffsIter k).b n = bSpec n ∧ (coeffsIter k).c n = cSpec n ∧
    (coeffsIter k).d n = dSpec n := by
  induction k with
  | zero =>
    intro n hn
    interval_cases n
    · refine ⟨?_, ?_, ?_⟩ <;>
        simp [coeffsIter_zero, coeffsSeed, updF, bSpec, cSpec, dSpec]
    · refine ⟨?_, ?_, ?_⟩ <;>
        simp [coeffsIter_zero, coeffsSeed, updF, bSpec, cSpec, dSpec]
    · refine ⟨?_, ?_, ?_⟩ <;>
        simp [coeffsIter_zero, coeffsSeed, updF, bSpec, cSpec, dSpec]
  | succ k ih =>
    intro n hn
    rw [coeffsIter_succ]
    rcases eq_or_ne n (3 + k) with rfl | hne
    · have hb2 : (coeffsIter k).b (3 + k - 2) = bSpec (k + 1) := by
        have := (ih (k + 1) (by omega)).1
        simpa [show 3 + k - 2 = k + 1 by omega] using this
      have hc2 : (coeffsIter k).c (3 + k - 2) = cSpec (k + 1) := by
        have := (ih (k + 1) (by omega)).2.1
        simpa [show 3 + k - 2 = k + 1 by omega] using this
      have hbv : (coeffsStep (coeffsIter k) (3 + k)).b (3 + k) = bSpec (3 + k) := by
        show updF _ (3 + k) _ (3 + k) = _
        rw [updF_same, hb2, show 3 + k = k + 3 by omega]
        rw [bSpec]
      refine ⟨hbv, ?_, ?_⟩
      · show updF _ (3 + k) _ (3 + k) = _
        rw [updF_same, hc2, show 3 + k = k + 3 by omega]
        rw [cSpec]
      · show updF _ (3 + k) _ (3 + k) = _
        rw [updF_same, hb2, show 3 + k = k + 3 by omega, dSpec, if_pos (by omega)]
        rw [bSpec]
    · have hlt : n < 3 + k := by omega
      obtain ⟨hb, hc, hd⟩ := ih n hlt
      exact ⟨by rw [show (coeffsStep (coeffsIter k) (3 + k)).b n = (coeffsIter k).b n from
                updF_other _ _ _ _ hne]; exact hb,
             by rw [show (coeffsStep (coeffsIter k) (3 + k)).c n = (coeffsIter k).c n from
                updF_other _ _ _ _ hne]; exact hc,
             by rw [show (coeffsStep (coeffsIter k) (3 + k)).d n = (coeffsIter k).d n from
                updF_other _ _ _ _ hne]; exact hd⟩

/-- Written-flags of the coefficient arrays after k iterations: b has
been assigned exactly at 1, 2 and the processed loop indices; c and d
exactly at 2 and the processed loop indices. -/
theorem coeffsIter_flags (k : ℕ) : ∀ n,
    ((coeffsIter k).wb n = true ↔ (n = 1 ∨ n = 2 ∨ (3 ≤ n ∧ n < 3 + k))) ∧
    ((coeffsIter k).wc n = true ↔ (n = 2 ∨ (3 ≤ n ∧ n < 3 + k))) ∧
    ((coeffsIter k).wd n = true ↔ (n = 2 ∨ (3 ≤ n ∧ n < 3 + k))) := by
  induction k with
  | zero =>
    intro n
    refine ⟨?_, ?_, ?_⟩ <;>
      · simp only [coeffsIter_zero, coeffsSeed, updF]
        split_ifs <;> simp_all
  | succ k ih =>
    intro n
    rw [coeffsIter_succ]
    rcases eq_or_ne n (3 + k) with rfl | hne
    · refine ⟨?_, ?_, ?_⟩ <;>
        · show updF _ (3 + k) true _ = true ↔ _
          rw [updF_same]
          simp only [true_iff]
          omega
    · obtain ⟨hb, hc, hd⟩ := ih n
      refine ⟨?_, ?_, ?_⟩
      · show updF _ (3 + k) true n = true ↔ _
        rw [updF_other _ _ _ _ hne, hb]
        omega
      · show updF _ (3 + k) true n = true ↔ _
        rw [updF_other _ _ _ _ hne, hc]
        omega
      · show updF _ (3 + k) true n = true ↔ _
        rw [updF_other _ _ _ _ hne, hd]
        omega

theorem coeffsFinal_values (n : ℕ) (h : n < 50) :
    coeffsFinal.b n = bSpec n ∧ coeffsFinal.c n = cSpec n ∧
    coeffsFinal.d n = dSpec n :=
  coeffsIter_values 47 n (by omega)

theorem coeffsFinal_wb (n : ℕ) :
    coeffsFinal.wb n = true ↔ (n = 1 ∨ n = 2 ∨ (3 ≤ n ∧ n < 50)) := by
  have := (coeffsIter_flags 47 n).1
  simpa using this

theorem coeffsFinal_wc (n : ℕ) :
    coeffsFinal.wc n = true ↔ (n = 2 ∨ (3 ≤ n ∧ n < 50)) := by
  have := (coeffsIter_flags 47 n).2.1
  simpa using this

theorem coeffsFinal_wd (n : ℕ) :
    coeffsFinal.wd n = true ↔ (n = 2 ∨ (3 ≤ n ∧ n < 50)) := by
  have := (coeffsIter_flags 47 n).2.2
  simpa using this

theorem F_pos (n : ℕ) : 0 < F n := by
  induction n with
  | zero => norm_num [F]
  | succ k ih =>
    have h1 : (0 : ℝ) < ((k + 1 : ℕ) : ℝ) := by exact_mod_cast Nat.succ_pos k
    calc (0 : ℝ) < ((k + 1 : ℕ) : ℝ) * F k := mul_pos h1 ih
    _ = F (k + 1) := by rw [F]

theorem bSpec_rec (n : ℕ) (h : 3 ≤ n) :
    bSpec n = signC n * bSpec (n - 2) / ((n : ℝ) * ((n : ℝ) + 2)) := by
  obtain ⟨m, rfl⟩ : ∃ m, n = m + 3 := ⟨n - 3, by omega⟩
  rw [show m + 3 - 2 = m + 1 from rfl, bSpec]

theorem cSpec_rec (n : ℕ) (h : 3 ≤ n) :
    cSpec n = cSpec (n - 2) + 1 / (n : ℝ) + 1 / (((n + 2 : ℕ)) : ℝ) := by
  obtain ⟨m, rfl⟩ : ∃ m, n = m + 3 := ⟨n - 3, by omega⟩
  rw [show m + 3 - 2 = m + 1 from rfl, cSpec]

/-- C6: the factorial table satisfies F[0] = 1 and F[n] = n * F[n-1] for
n = 1..149, and is strictly increasing for n ≥ 1. -/
theorem factorial_table_spec :
    F 0 = 1 ∧ (∀ n, 1 ≤ n → n ≤ 149 → F n = (n : ℝ) * F (n - 1)) ∧
    (∀ n, 1 ≤ n → n + 1 ≤ 149 → F n < F (n + 1)) := by
  refine ⟨rfl, ?_, ?_⟩
  · intro n h1 _
    obtain ⟨m, rfl⟩ : ∃ m, n = m + 1 := ⟨n - 1, by omega⟩
    rw [show m + 1 - 1 = m from rfl, F]
  · intro n h1 _
    have hpos : 0 < F n := F_pos n
    have h2 : (1 : ℝ) < ((n + 1 : ℕ) : ℝ) := by exact_mod_cast by omega
    calc F n = 1 * F n := (one_mul _).symm
    _ < ((n + 1 : ℕ) : ℝ) * F n := by exact mul_lt_mul_of_pos_right h2 hpos
    _ = F (n + 1) := by rw [F]

theorem factorial_table_spec_witness :
    (1 ≤ 5 ∧ 5 ≤ 149 ∧ F 5 = ((5 : ℕ) : ℝ) * F (5 - 1)) ∧
    (1 ≤ 5 ∧ 5 + 1 ≤ 149 ∧ F 5 < F (5 + 1)) :=
  ⟨⟨by norm_num, by norm_num, factorial_table_spec.2.1 5 (by norm_num) (by norm_num)⟩,
   ⟨by norm_num, by norm_num, factorial_table_spec.2.2 5 (by norm_num) (by norm_num)⟩⟩

/-- C3: the Coefficient Builder seeds b[1] = sqrt(2)/6, b[2] = 1/16,
c[2] = 1.3659315, d[2] = pi*b[2]/4; every loop index n = 3..49 satisfies
the recurrences b[n] = sign(n)*b[n-2]/(n(n+2)) with the corrected sign
sign(n) = (-1)^((n+1)/2 mod 2), c[n] = c[n-2] + 1/n + 1/(n+2), and
d[n] = pi*b[n]/4; and the published sign formula (-1)^((n-1)/4 mod 2)
differs from the corrected one (at n = 7) and would produce a different
b[7]. -/
theorem coeffs_recurrence :
    coeffsFinal.b 1 = Real.sqrt 2 / 6 ∧
    coeffsFinal.b 2 = 1 / 16 ∧
    coeffsFinal.c 2 = 1.3659315 ∧
    coeffsFinal.d 2 = Real.pi * coeffsFinal.b 2 / 4 ∧
    (∀ n, 3 ≤ n → n ≤ 49 →
      coeffsFinal.b n = signC n * coeffsFinal.b (n - 2) / ((n : ℝ) * ((n : ℝ) + 2)) ∧
      coeffsFinal.c n = coeffsFinal.c (n - 2) + 1 / (n : ℝ) + 1 / (((n + 2 : ℕ)) : ℝ) ∧
      coeffsFinal.d n = Real.pi * coeffsFinal.b n / 4) ∧
    signC 7 ≠ signPub 7 ∧
    coeffsFinal.b 7 ≠ signPub 7 * coeffsFinal.b (7 - 2) / (((7 : ℕ) : ℝ) * (((7 : ℕ) : ℝ) + 2)) := by
  have e1 : bSpec 1 = Real.sqrt 2 / 6 := rfl
  have hb1 : bSpec 1 ≠ 0 := by
    rw [e1]
    exact ne_of_gt (by positivity)
  have hb3 : bSpec 3 ≠ 0 := by
    have h := bSpec_rec 3 (by norm_num)
    rw [show (3 : ℕ) - 2 = 1 from rfl] at h
    rw [h]
    apply div_ne_zero (mul_ne_zero ?_ hb1) (by norm_num)
    norm_num [signC]
  have hb5 : bSpec 5 ≠ 0 := by
    have h := bSpec_rec 5 (by norm_num)
    rw [show (5 : ℕ) - 2 = 3 from rfl] at h
    rw [h]
    apply div_ne_zero (mul_ne_zero ?_ hb3) (by norm_num)
    norm_num [signC]
  have hrec : ∀ n, 3 ≤ n → n ≤ 49 →
      coeffsFinal.b n = signC n * coeffsFinal.b (n - 2) / ((n : ℝ) * ((n : ℝ) + 2)) ∧
      coeffsFinal.c n = coeffsFinal.c (n - 2) + 1 / (n : ℝ) + 1 / (((n + 2 : ℕ)) : ℝ) ∧
      coeffsFinal.d n = Real.pi * coeffsFinal.b n / 4 := by
    intro n h3 h49
    have hv := coeffsFinal_values n (by omega)
    have hv2 := coeffsFinal_values (n - 2) (by omega)
    refine ⟨?_, ?_, ?_⟩
    · rw [hv.1, hv2.1]
      exact bSpec_rec n h3
    · rw [hv.2.1, hv2.2.1]
      exact cSpec_rec n h3
    · rw [hv.2.2, hv.1]
      unfold dSpec
      rw [if_pos (by omega)]
  refine ⟨?_, ?_, ?_, ?_, hrec, ?_, ?_⟩
  · rw [(coeffsFinal_values 1 (by norm_num)).1]
    exact e1
  · rw [(coeffsFinal_values 2 (by norm_num)).1]
    rfl
  · rw [(coeffsFinal_values 2 (by norm_num)).2.1]
    rfl
  · rw [(coeffsFinal_values 2 (by norm_num)).2.2, (coeffsFinal_values 2 (by norm_num)).1]
    unfold dSpec
    rw [if_pos (by norm_num)]
  · norm_num [signC, signPub]
  · intro heq
    have h7 := (hrec 7 (by norm_num) (by norm_num)).1
    rw [h7] at heq
    have hb5v : coeffsFinal.b (7 - 2) = bSpec 5 := by
      have := (coeffsFinal_values 5 (by norm_num)).1
      rw [show (7 : ℕ) - 2 = 5 from rfl]
      exact this
    rw [hb5v] at heq
    have hs1 : signC 7 = 1 := by norm_num [signC]
    have hs2 : signPub 7 = -1 := by norm_num [signPub]
    rw [hs1, hs2] at heq
    have hD : (((7 : ℕ) : ℝ) * (((7 : ℕ) : ℝ) + 2)) ≠ 0 := by norm_num
    rw [div_eq_div_iff hD hD] at heq
    apply hb5
    have : bSpec 5 * (((7 : ℕ) : ℝ) * (((7 : ℕ) : ℝ) + 2)) = 0 := by linarith
    rcases mul_eq_zero.mp this with h | h
    · exact h
    · exact absurd h hD

theorem coeffs_recurrence_witness :
    (3 ≤ 10 ∧ 10 ≤ 49) ∧
    coeffsFinal.b 10 = signC 10 * coeffsFinal.b (10 - 2) / (((10 : ℕ) : ℝ) * (((10 : ℕ) : ℝ) + 2)) :=
  ⟨⟨by norm_num, by norm_num⟩,
   (coeffs_recurrence.2.2.2.2.1 10 (by norm_num) (by norm_num)).1⟩

/-- C5 counterexample: the entries c[1] and d[1] — although inside the
range 1 ≤ n ≤ 48 — are never assigned by Coeffs(): only b is seeded at
index 1, and the loop starts at n = 3. -/
theorem coeffs_c1_d1_unassigned :
    coeffsFinal.wc 1 = false ∧ coeffsFinal.wd 1 = false := by
  constructor
  · cases hb : coeffsFinal.wc 1
    · rfl
    · exact absurd ((coeffsFinal_wc 1).mp hb) (by omega)
  · cases hb : coeffsFinal.wd 1
    · rfl
    · exact absurd ((coeffsFinal_wd 1).mp hb) (by omega)

/-- C5 amended: Coeffs() assigns b[n] for every 1 ≤ n ≤ 48 and c[n],
d[n] for every 2 ≤ n ≤ 48; the entries c[1] and d[1] are never
assigned. -/
theorem coeffs_assigned :
    (∀ n, 1 ≤ n → n ≤ 48 → coeffsFinal.wb n = true) ∧
    (∀ n, 2 ≤ n → n ≤ 48 → coeffsFinal.wc n = true ∧ coeffsFinal.wd n = true) := by
  constructor
  · intro n h1 h2
    rw [coeffsFinal_wb]
    omega
  · intro n h1 h2
    exact ⟨by rw [coeffsFinal_wc]; omega, by rw [coeffsFinal_wd]; omega⟩

theorem coeffs_assigned_witness :
    (1 ≤ 3 ∧ 3 ≤ 48 ∧ coeffsFinal.wb 3 = true) ∧
    (2 ≤ 2 ∧ 2 ≤ 48 ∧ coeffsFinal.wc 2 = true) :=
  ⟨⟨by norm_num, by norm_num, coeffs_assigned.1 3 (by norm_num) (by norm_num)⟩,
   ⟨by norm_num, by norm_num, (coeffs_assigned.2 2 (by norm_num) (by norm_num)).1⟩⟩

/-- C9: across the 8 iterations of J's six loops, the factorial indices
stay at nf + 1 ≤ 17 (< 150), the odd-square-product indices at
nden ≤ 33 (< 102) and the harmonic indices at nfrac ≤ 17 (< 101) — but
the power/trig-table index np of the s4 and sg4 loops reaches 32 at
ns = 7, one past the last valid index 31 of the 32-element tables: an
out-of-bounds read in the source. -/
theorem J_index_out_of_bounds :
    ((List.range 8).all fun ns =>
      decide (s2_nf ns + 1 ≤ 17) && decide (s4_nf ns + 1 ≤ 17) &&
      decide (sg2_nf ns + 1 ≤ 17) && decide (sg4_nf ns + 1 ≤ 17) &&
      decide (sg1_nden ns ≤ 33) && decide (sg3_nden ns ≤ 33) &&
      decide (sg2_nfrac ns ≤ 17) && decide (sg4_nfrac ns ≤ 17) &&
      decide (s2_np ns ≤ 31) && decide (sg1_np ns ≤ 31) &&
      decide (sg3_np ns ≤ 31) && decide (sg2_np ns ≤ 31)) = true ∧
    s4_np 7 = 32 ∧ sg4_np 7 = 32 ∧ ¬(s4_np 7 ≤ 31) ∧ ¬(sg4_np 7 ≤ 31) := by
  decide

/-- C10: Je depends on the coefficient tables only through b[1..25],
c at even indices 2..22 and d at even indices 2..24 (so the odd-index c
entries and the never-seeded d[1] influence no evaluator), and every one
of those entries is assigned by Coeffs(). -/
theorem Je_coeff_reads :
    (∀ (bf cf df bg cg dg : ℕ → ℝ) (p q : ℝ),
      (∀ n, n ∈ Finset.Icc 1 25 → bf n = bg n) →
      (∀ n, n % 2 = 0 → n ∈ Finset.Icc 2 22 → cf n = cg n) →
      (∀ n, n % 2 = 0 → n ∈ Finset.Icc 2 24 → df n = dg n) →
      JeGenP bf cf df p q = JeGenP bg cg dg p q ∧
      JeGenQ bf cf df p q = JeGenQ bg cg dg p q) ∧
    (∀ n, n ∈ Finset.Icc 1 25 → coeffsFinal.wb n = true) ∧
    (∀ n, n % 2 = 0 → n ∈ Finset.Icc 2 22 → coeffsFinal.wc n = true) ∧
    (∀ n, n % 2 = 0 → n ∈ Finset.Icc 2 24 → coeffsFinal.wd n = true) := by
  refine ⟨?_, ?_, ?_, ?_⟩
  · intro bf cf df bg cg dg p q hb hc hd
    constructor
    · unfold JeGenP JeGenPcore
      rw [hb 1 (by decide), hb 2 (by decide), hb 3 (by decide), hb 5 (by decide),
        hb 6 (by decide), hb 7 (by decide), hb 9 (by decide), hb 10 (by decide),
        hb 11 (by decide), hb 13 (by decide), hb 14 (by decide), hb 15 (by decide),
        hb 17 (by decide), hb 18 (by decide), hb 19 (by decide), hb 21 (by decide),
        hb 22 (by decide), hb 23 (by decide), hb 25 (by decide),
        hc 2 (by decide) (by decide), hc 6 (by decide) (by decide),
        hc 10 (by decide) (by decide), hc 14 (by decide) (by decide),
        hc 18 (by decide) (by decide), hc 22 (by decide) (by decide),
        hd 4 (by decide) (by decide), hd 8 (by decide) (by decide),
        hd 12 (by decide) (by decide), hd 16 (by decide) (by decide),
        hd 20 (by decide) (by decide), hd 24 (by decide) (by decide)]
    · unfold JeGenQ JeGenQcore
      rw [hb 1 (by decide), hb 3 (by decide), hb 4 (by decide), hb 5 (by decide),
        hb 7 (by decide), hb 8 (by decide), hb 9 (by decide), hb 11 (by decide),
        hb 12 (by decide), hb 13 (by decide), hb 15 (by decide), hb 16 (by decide),
        hb 17 (by decide), hb 19 (by decide), hb 20 (by decide), hb 21 (by decide),
        hb 23 (by decide),
        hc 4 (by decide) (by decide), hc 8 (by decide) (by decide),
        hc 12 (by decide) (by decide), hc 16 (by decide) (by decide),
        hc 20 (by decide) (by decide),
        hd 2 (by decide) (by decide), hd 6 (by decide) (by decide),
        hd 10 (by decide) (by decide), hd 14 (by decide) (by decide),
        hd 18 (by decide) (by decide), hd 22 (by decide) (by decide)]
  · intro n hm
    rw [Finset.mem_Icc] at hm
    rw [coeffsFinal_wb]
    omega
  · intro n h2 hm
    rw [Finset.mem_Icc] at hm
    rw [coeffsFinal_wc]
    omega
  · intro n h2 hm
    rw [Finset.mem_Icc] at hm
    rw [coeffsFinal_wd]
    omega

theorem Je_coeff_reads_witness :
    JeGenP (fun _ => 1) (fun _ => 0) (fun _ => 0) 1 0 =
      JeGenP (fun _ => 1) (fun n => if n % 2 = 1 then 5 else 0)
        (fun n => if n = 1 then 7 else 0) 1 0 ∧
    coeffsFinal.wb 3 = true :=
  ⟨(Je_coeff_reads.1 (fun _ => 1) (fun _ => 0) (fun _ => 0) (fun _ => 1)
      (fun n => if n % 2 = 1 then 5 else 0) (fun n => if n = 1 then 7 else 0) 1 0
      (fun _ _ => rfl)
      (fun n h _ => by
        show (0 : ℝ) = if n % 2 = 1 then 5 else 0
        rw [if_neg (by omega)])
      (fun n h _ => by
        show (0 : ℝ) = if n = 1 then 7 else 0
        rw [if_neg (by omega)])).1,
   Je_coeff_reads.2.1 3 (by decide)⟩

theorem foldl_add_eq_sum (g : ℕ → ℂ) :
    ∀ n, (List.range n).foldl (fun s i => s + g i) 0 = ∑ i in Finset.range n, g i := by
  intro n
  induction n with
  | zero => simp
  | succ k ih =>
    rw [List.range_succ, List.foldl_append, List.foldl_cons, List.foldl_nil, ih,
      Finset.sum_range_succ]

theorem CIifac_eq_w (i : ℕ) : CIifac 10000 i = wSimpson 10000 i := by
  unfold CIifac wSimpson
  by_cases h0 : i = 0 ∨ i = 10000
  · rw [if_pos h0, if_pos h0]
  · rw [if_neg h0, if_neg h0]
    rcases Nat.mod_two_eq_zero_or_one i with h | h
    · rw [if_neg (by omega), h]
      norm_num
    · rw [if_pos h, h]
      norm_num

theorem CIintegrand_eq_fSpec (p q mu : ℝ) : CIintegrand p q mu = fSpec p q mu := by
  unfold CIintegrand fSpec
  rw [pow_two]

set_option maxRecDepth 8000

/-- C2: CI(p, q) equals the composite-Simpson sum over [0, 10] with
N = 10000 intervals: (dmu/3) times the sum over i = 0..N of w_i * f(i*dmu),
with w_i = 1 at the endpoints, 4 at odd i, 2 at even interior i, and
f(mu) = (sqrt(mu^2 + i) - mu) * e^(-p*mu) * cos(q*mu). -/
theorem CI_is_simpson : ∀ p q : ℝ, CI p q = CISpec p q := by
  intro p q
  unfold CI CISpec
  rw [foldl_add_eq_sum
    (fun i => ((CIifac 10000 i : ℝ) : ℂ) * CIintegrand p q ((i : ℝ) * (10 / 10000 : ℝ))) 10001]
  have hsum : ∑ i in Finset.range 10001,
      ((CIifac 10000 i : ℝ) : ℂ) * CIintegrand p q ((i : ℝ) * (10 / 10000 : ℝ)) =
      ∑ i in Finset.range 10001,
      ((wSimpson 10000 i : ℝ) : ℂ) * fSpec p q ((i : ℝ) * (10 / 10000 : ℝ)) :=
    Finset.sum_congr rfl fun i _ => by rw [CIifac_eq_w, CIintegrand_eq_fSpec]
  rw [hsum, mul_comm]

theorem atan2_neg_left (y x : ℝ) (hy : y ≠ 0) : atan2 (-y) x = -atan2 y x := by
  unfold atan2
  rcases lt_trichotomy 0 x with hx | hx | hx
  · rw [if_pos hx, if_pos hx, neg_div, Real.arctan_neg]
  · subst hx
    rw [if_neg (lt_irrefl 0), if_neg (lt_irrefl 0), if_neg (lt_irrefl 0),
      if_neg (lt_irrefl 0)]
    rcases hy.lt_or_lt with h | h
    · rw [if_pos (show (0 : ℝ) < -y by linarith), if_neg (show ¬(0 : ℝ) < y by linarith),
        if_pos h, neg_neg]
    · rw [if_neg (show ¬(0 : ℝ) < -y by linarith), if_pos (show -y < (0 : ℝ) by linarith),
        if_pos h]
  · rw [if_neg (show ¬(0 : ℝ) < x by linarith), if_neg (show ¬(0 : ℝ) < x by linarith),
      if_pos hx, if_pos hx]
    rcases hy.lt_or_lt with h | h
    · rw [if_pos (show (0 : ℝ) ≤ -y by linarith), if_neg (show ¬(0 : ℝ) ≤ y by linarith),
        neg_div, Real.arctan_neg]
      ring
    · rw [if_neg (show ¬(0 : ℝ) ≤ -y by linarith), if_pos (show (0 : ℝ) ≤ y by linarith),
        neg_div, Real.arctan_neg]
      ring

theorem atan2_zero_left (x : ℝ) (hx : 0 ≤ x) : atan2 0 x = 0 := by
  unfold atan2
  rcases eq_or_lt_of_le hx with h | h
  · rw [if_neg (show ¬(0 : ℝ) < x by rw [← h]; exact lt_irrefl 0),
      if_neg (show ¬x < (0 : ℝ) by rw [← h]; exact lt_irrefl 0),
      if_neg (lt_irrefl 0), if_neg (lt_irrefl 0)]
  · rw [if_pos h, zero_div, Real.arctan_zero]

theorem s2sum_neg (r th : ℝ) : s2sum r (-th) = s2sum r th := by
  unfold s2sum
  apply Finset.sum_congr rfl
  intro ns _
  rw [mul_neg, Real.cos_neg]

theorem s2psum_neg (r th : ℝ) : s2psum r (-th) = -s2psum r th := by
  unfold s2psum
  rw [← Finset.sum_neg_distrib]
  apply Finset.sum_congr rfl
  intro ns _
  rw [mul_neg, Real.sin_neg, mul_neg]

theorem s4sum_neg (r th : ℝ) : s4sum r (-th) = s4sum r th := by
  unfold s4sum
  apply Finset.sum_congr rfl
  intro ns _
  rw [mul_neg, Real.cos_neg]

theorem s4psum_neg (r th : ℝ) : s4psum r (-th) = -s4psum r th := by
  unfold s4psum
  rw [← Finset.sum_neg_distrib]
  apply Finset.sum_congr rfl
  intro ns _
  rw [mul_neg, Real.sin_neg, mul_neg]

theorem sg1sum_neg (r th : ℝ) : sg1sum r (-th) = sg1sum r th := by
  unfold sg1sum
  apply Finset.sum_congr rfl
  intro ns _
  rw [mul_neg, Real.cos_neg]

theorem sg3sum_neg (r th : ℝ) : sg3sum r (-th) = sg3sum r th := by
  unfold sg3sum
  apply Finset.sum_congr rfl
  intro ns _
  rw [mul_neg, Real.cos_neg]

theorem sg2sum_neg (r th : ℝ) : sg2sum r (-th) = sg2sum r th := by
  unfold sg2sum
  apply Finset.sum_congr rfl
  intro ns _
  rw [mul_neg, Real.cos_neg]

theorem sg4sum_neg (r th : ℝ) : sg4sum r (-th) = sg4sum r th := by
  unfold sg4sum
  apply Finset.sum_congr rfl
  intro ns _
  rw [mul_neg, Real.cos_neg]

theorem Jcore_neg (r th : ℝ) : Jcore r (-th) = Jcore r th := by
  unfold Jcore
  rw [s2sum_neg, s2psum_neg, s4sum_neg, s4psum_neg, sg1sum_neg, sg2sum_neg,
    sg3sum_neg, sg4sum_neg, Prod.mk.injEq]
  exact ⟨by ring, by ring⟩

theorem JeGenPcore_neg (bf cf df : ℕ → ℝ) (a th : ℝ) :
    JeGenPcore bf cf df a (-th) = JeGenPcore bf cf df a th := by
  unfold JeGenPcore
  simp only [mul_neg, neg_mul, Real.cos_neg, Real.sin_neg, neg_neg]

theorem JeGenQcore_neg (bf cf df : ℕ → ℝ) (a th : ℝ) :
    JeGenQcore bf cf df a (-th) = JeGenQcore bf cf df a th := by
  unfold JeGenQcore
  simp only [mul_neg, neg_mul, Real.cos_neg, Real.sin_neg, neg_neg]

/-- C8: swapping the sign of q negates the angle th = atan2(q, p)
(stated away from the q = 0, p < 0 ray, where the real-number model has
no signed zero), and — since sine factors occur only multiplied by th —
every term of both series is even under q ↦ -q, so J(p, -q) = J(p, q)
and Je(p, -q) = Je(p, q) for all p, q. -/
theorem q_negation_symmetry : ∀ p q : ℝ,
    ((q ≠ 0 ∨ 0 ≤ p) → atan2 (-q) p = -atan2 q p) ∧
    J p (-q) = J p q ∧ Je p (-q) = Je p q := by
  intro p q
  have hr : p * p + -q * -q = p * p + q * q := by ring
  refine ⟨?_, ?_, ?_⟩
  · intro h
    rcases h with hq | hp
    · exact atan2_neg_left q p hq
    · rcases eq_or_ne q 0 with rfl | hq
      · rw [neg_zero, atan2_zero_left p hp]
        norm_num
      · exact atan2_neg_left q p hq
  · unfold J
    rw [hr]
    rcases eq_or_ne q 0 with rfl | hq
    · rw [neg_zero]
    · rw [atan2_neg_left q p hq, Jcore_neg]
  · unfold Je JeGenP JeGenQ
    rw [hr]
    rcases eq_or_ne q 0 with rfl | hq
    · rw [neg_zero]
    · rw [atan2_neg_left q p hq, JeGenPcore_neg, JeGenQcore_neg]

theorem q_negation_symmetry_witness :
    atan2 (-(1 : ℝ)) 1 = -atan2 1 1 ∧ J 1 (-(1 : ℝ)) = J 1 1 :=
  ⟨(q_negation_symmetry 1 1).1 (Or.inl one_ne_zero), (q_negation_symmetry 1 1).2.1⟩

theorem chkPair_check (f g : ℕ → Option ℝ) (mk : ℕ → Option ℝ → Option ℝ → JDiag) :
    ∀ (l : List ℕ) (a b : Option ℝ),
      (fisnan a || fisnan b || okNanFree2 (chkPair f g mk l a b)) = true := by
  intro l
  induction l with
  | nil =>
    intro a b
    cases a <;> cases b <;> simp [chkPair, okNanFree2, fisnan]
  | cons ns rest ih =>
    intro a b
    rw [chkPair]
    split
    · simp [okNanFree2]
    · rename_i h
      have h2 := ih (a + f ns) (b + g ns)
      simp only [Bool.or_eq_true] at h h2 ⊢
      tauto

theorem chkOne_check (f : ℕ → Option ℝ) (mk : ℕ → JDiag) :
    ∀ (l : List ℕ) (a : Option ℝ),
      (fisnan a || okNanFree1 (chkOne f mk l a)) = true := by
  intro l
  induction l with
  | nil =>
    intro a
    cases a <;> simp [chkOne, okNanFree1, fisnan]
  | cons ns rest ih =>
    intro a
    rw [chkOne]
    split
    · simp [okNanFree1]
    · rename_i h
      have h2 := ih (a + f ns)
      simp only [Bool.or_eq_true] at h h2 ⊢
      tauto

/-- C4 amended: each of the six accumulation loops of J tests its
partial sum(s) with isnan after every accumulation step, and a loop that
returns normally carries no NaN; on detection the loop aborts at the
exact failing step, emitting the iteration index and the term index —
but only the first loop (s2/s2p) also emits the intermediate values. -/
theorem J_nan_checks :
    (∀ rhp cthp sthp l s2v s2pv,
      (fisnan s2v || fisnan s2pv || okNanFree2 (s2loop rhp cthp sthp l s2v s2pv)) = true) ∧
    (∀ rhp cthp sthp l s4v s4pv,
      (fisnan s4v || fisnan s4pv || okNanFree2 (s4loop rhp cthp sthp l s4v s4pv)) = true) ∧
    (∀ rp cthp l sv, (fisnan sv || okNanFree1 (g1loop rp cthp l sv)) = true) ∧
    (∀ rp cthp l sv, (fisnan sv || okNanFree1 (g3loop rp cthp l sv)) = true) ∧
    (∀ rhp cthp l sv, (fisnan sv || okNanFree1 (g2loop rhp cthp l sv)) = true) ∧
    (∀ rhp cthp l sv, (fisnan sv || okNanFree1 (g4loop rhp cthp l sv)) = true) ∧
    s2loop (fun _ => none) (fun _ => none) (fun _ => none) [0, 1, 2, 3, 4, 5, 6, 7]
        (some 0) (some 0) =
      .error (.s2full 0 2 none none none (-1) 3 (F 3) (F 4) none none) ∧
    diagHasIntermediates (.s2full 0 2 none none none (-1) 3 (F 3) (F 4) none none) = true ∧
    s4loop (fun n => if n = 16 then none else some 1) (fun _ => some 1) (fun _ => some 1)
        [0, 1, 2, 3, 4, 5, 6, 7] (some 0) (some 0) = .error (.s4brief 3 16) :=
  ⟨fun _ _ _ l a b => chkPair_check _ _ _ l a b,
   fun _ _ _ l a b => chkPair_check _ _ _ l a b,
   fun _ _ l a => chkOne_check _ _ l a,
   fun _ _ l a => chkOne_check _ _ l a,
   fun _ _ l a => chkOne_check _ _ l a,
   fun _ _ l a => chkOne_check _ _ l a,
   rfl, rfl, rfl⟩

/-- C4 counterexample: a NaN detected in the s4/s4p loop aborts with a
diagnostic holding only the iteration index and the term index — no
intermediate values — contradicting the claim that every detection
emits the intermediate values. -/
theorem J_nan_diag_counterexample :
    s4loop (fun _ => none) (fun _ => none) (fun _ => none) [0, 1, 2, 3, 4, 5, 6, 7]
        (some 0) (some 0) = .error (.s4brief 0 4) ∧
    diagHasIntermediates (.s4brief 0 4) = false :=
  ⟨rfl, rfl⟩

theorem foldl_filter_append (p : ℕ → Bool) :
    ∀ (l : List ℕ) (acc : List ℕ),
      l.foldl (fun a n => if p n then a ++ [n] else a) acc = acc ++ l.filter p := by
  intro l
  induction l with
  | nil =>
    intro acc
    simp
  | cons x xs ih =>
    intro acc
    rw [List.foldl_cons]
    by_cases h : p x = true
    · rw [if_pos h, ih, List.filter_cons_of_pos h, List.append_assoc, List.singleton_append]
    · rw [if_neg h, ih, List.filter_cons_of_neg (by simpa using h)]

/-- C7: the table-building check of Je only records diagnostics — the
recorded list is exactly the set of indices n < 32 whose power or trig
entry is NaN — and the evaluator always goes on to return a result pair
(it never aborts); with a NaN entry the diagnostic list is nonempty and
the returned P is itself NaN, while with finite tables it is not. -/
theorem Je_nan_tolerant :
    (∀ ap cthp sthp, JeCheckLog ap cthp sthp = JeLog ap cthp sthp) ∧
    (∀ lna th ap cthp sthp,
      JeChecked lna th ap cthp sthp =
        (JeLog ap cthp sthp, JePopt lna th ap cthp sthp, JeQopt lna th ap cthp sthp)) ∧
    JeLog apNan oneTbl oneTbl = [1] ∧
    fisnan (JePopt 0 0 apNan oneTbl oneTbl) = true ∧
    fisnan (JePopt 0 0 oneTbl oneTbl oneTbl) = false := by
  have h1 : ∀ ap cthp sthp, JeCheckLog ap cthp sthp = JeLog ap cthp sthp := by
    intro ap cthp sthp
    unfold JeCheckLog JeLog
    rw [foldl_filter_append, List.nil_append]
  refine ⟨h1, ?_, rfl, rfl, rfl⟩
  intro lna th ap cthp sthp
  unfold JeChecked
  rw [h1]

end Carson
